import Mathlib

/-!
Verification development for the Critters game contract (src/Critters.py,
SmartPy class GameContract).  The contract is shallowly embedded: each entry
point becomes a Lean function from the contract storage (plus the implicit
SmartPy context sp.sender / sp.now) to either an error or the new storage
together with the list of value-transfer instructions emitted by sp.send.

Modelling choices:

* mutez amounts and addresses are natural numbers; timestamps (sp.now and
  deadlines) are integers;
* the SmartPy map `participants : TMap TAddress TMutez` is an association
  list that is only ever built from the empty map by the overwriting
  insertion `mapInsert`, so keys stay pairwise distinct and `sp.len` is the
  list length;
* the big_map `games` is keyed by the strictly increasing `gameCounter`, and
  keys are never deleted, so its key set is always {0, ..., gameCounter-1}:
  it is modelled as a `List Game` indexed by game id, and the insertion at
  the fresh key `gameCounter` performed by `create_game` is an append;
* a failing `sp.verify` aborts the whole call with no state change, so every
  entry point returns `Except Err (Storage × List Transfer)`;
* the string messages of the `sp.verify` calls are mapped to the error
  taxonomy of the specification (section 7): Unauthorized for the admin and
  owner gates, NotFound for a missing big_map key, InvalidState for the
  lifecycle checks, Expired for the deadline check of join_game, Full for
  its capacity check, InvalidOperation for malformed arguments (wrong winner
  count, removing the owner, fee percentage above 100), InvalidDistribution
  for the two distribution-table checks, and IndexError for an out-of-range
  list access at runtime (never reachable from the initial storage).
-/

abbrev Addr := Nat

abbrev Transfer := Addr × Nat

inductive Err where
  | Unauthorized
  | NotFound
  | InvalidState
  | Expired
  | Full
  | InvalidOperation
  | InvalidDistribution
  | IndexError
deriving DecidableEq

/-- One game record, as in the tvalue of the `games` big_map. -/
structure Game where
  participants : List (Addr × Nat)
  totalAmount : Nat
  started : Bool
  ended : Bool
  maxParticipants : Nat
  deadline : Int
deriving DecidableEq

/-- The contract storage declared in `GameContract.__init__`. -/
structure Storage where
  games : List Game
  gameCounter : Nat
  feePercentage : Nat
  numWinners : Nat
  winnerDistribution : List Nat
  owner : Addr
  admins : List Addr
  totalFee : Nat
deriving DecidableEq

abbrev Result := Except Err (Storage × List Transfer)

/-- `game.participants[sender] = amount`: overwrite the value at an existing
key, otherwise append the new binding. -/
def mapInsert (k : Addr) (v : Nat) : List (Addr × Nat) → List (Addr × Nat)
  | [] => [(k, v)]
  | (k₀, v₀) :: rest => if k₀ = k then (k, v) :: rest else (k₀, v₀) :: mapInsert k v rest

/-- Sum of the values of a participants map. -/
def sumValues (l : List (Addr × Nat)) : Nat := (l.map Prod.snd).sum

/-- `sp.set.add`: idempotent insertion. -/
def setAdd (a : Addr) (l : List Addr) : List Addr := if a ∈ l then l else l ++ [a]

/-- `sp.set.remove` (Michelson UPDATE with False: no failure on a missing
element). -/
def setRemove (a : Addr) (l : List Addr) : List Addr := l.filter (fun x => x ≠ a)

/-- `is_admin` (line 142): membership in the admins set. -/
def is_admin (s : Storage) (a : Addr) : Bool := s.admins.contains a

/-- `sp.split_tokens(amount, quantity, totalQuantity)`: mutez arithmetic
`amount * quantity / totalQuantity` with floor division. -/
def split_tokens (amount quantity totalQuantity : Nat) : Nat :=
  amount * quantity / totalQuantity

/-- `create_game` (lines 23-34). The insertion at key `gameCounter` is an
append, see the header comment. -/
def create_game (s : Storage) (sender : Addr) (now : Int)
    (maxParticipants : Nat) (deadline : Int) : Result :=
  if is_admin s sender then
    .ok ({ s with
            games := s.games ++ [{ participants := []
                                   totalAmount := 0
                                   started := false
                                   ended := false
                                   maxParticipants := maxParticipants
                                   deadline := now + deadline }]
            gameCounter := s.gameCounter + 1 }, [])
  else .error .Unauthorized

/-- The mutation of the joined game in `join_game` (lines 43-48): overwrite
the sender's entry, add the amount to `totalAmount`, and set `started` when
the post-join participant count equals `maxParticipants`. -/
def join_update (sender : Addr) (amount : Nat) (game : Game) : Game :=
  let parts := mapInsert sender amount game.participants
  { game with
    participants := parts
    totalAmount := game.totalAmount + amount
    started := if parts.length = game.maxParticipants then true else game.started }

/-- `join_game` (lines 36-48); `sp.verify(sp.now <= game.deadline)` fails iff
`game.deadline < now`, and `sp.verify(len < max)` fails iff `max ≤ len`. -/
def join_game (s : Storage) (sender : Addr) (now : Int)
    (game_id : Nat) (amount : Nat) : Result :=
  match s.games[game_id]? with
  | none => .error .NotFound
  | some game =>
    if game.started then .error .InvalidState
    else if game.ended then .error .InvalidState
    else if game.deadline < now then .error .Expired
    else if game.maxParticipants ≤ game.participants.length then .error .Full
    else .ok ({ s with games := s.games.set game_id (join_update sender amount game) }, [])

/-- `start_game` (lines 50-53). -/
def start_game (s : Storage) (sender : Addr) (game_id : Nat) : Result :=
  if is_admin s sender then
    match s.games[game_id]? with
    | none => .error .NotFound
    | some game =>
      .ok ({ s with games := s.games.set game_id { game with started := true } }, [])
  else .error .Unauthorized

/-- The payout loop of `end_game` (lines 73-75): for i in 0..n-1 send
`split_tokens(prize, winnerDistribution[i], 100)` to `winners[i]`; an
out-of-range index aborts the operation. -/
def prize_transfers (prize : Nat) (dist : List Nat) (winners : List Addr) :
    Nat → Option (List Transfer)
  | 0 => some []
  | n + 1 =>
    match prize_transfers prize dist winners n, dist[n]?, winners[n]? with
    | some acc, some p, some w => some (acc ++ [(w, split_tokens prize p 100)])
    | _, _, _ => none

/-- `end_game` (lines 55-77). -/
def end_game (s : Storage) (sender : Addr) (game_id : Nat) (winners : List Addr) : Result :=
  if is_admin s sender then
    match s.games[game_id]? with
    | none => .error .NotFound
    | some game =>
      if game.started then
        if game.ended then .error .InvalidState
        else if winners.length = s.numWinners then
          let fee := split_tokens game.totalAmount s.feePercentage 100
          let prize := game.totalAmount - fee
          match prize_transfers prize s.winnerDistribution winners s.numWinners with
          | none => .error .IndexError
          | some tr =>
            .ok ({ s with
                    totalFee := s.totalFee + fee
                    games := s.games.set game_id { game with ended := true } }, tr)
        else .error .InvalidOperation
      else .error .InvalidState
  else .error .Unauthorized

/-- `cancel_game` (lines 79-88): one refund per participant, each equal to
the recorded deposit, then `ended := true`. -/
def cancel_game (s : Storage) (sender : Addr) (game_id : Nat) : Result :=
  if is_admin s sender then
    match s.games[game_id]? with
    | none => .error .NotFound
    | some game =>
      if game.ended then .error .InvalidState
      else .ok ({ s with games := s.games.set game_id { game with ended := true } },
                game.participants)
  else .error .Unauthorized

/-- `set_max_participants` (lines 90-95). -/
def set_max_participants (s : Storage) (sender : Addr)
    (game_id : Nat) (maxParticipants : Nat) : Result :=
  if is_admin s sender then
    match s.games[game_id]? with
    | none => .error .NotFound
    | some game =>
      if game.started then .error .InvalidState
      else .ok ({ s with
                   games := s.games.set game_id { game with maxParticipants := maxParticipants } },
                [])
  else .error .Unauthorized

/-- `set_winner_distribution` (lines 97-103). -/
def set_winner_distribution (s : Storage) (sender : Addr)
    (winnerDistribution : List Nat) : Result :=
  if is_admin s sender then
    if winnerDistribution.length = s.numWinners then
      if winnerDistribution.sum = 100 then
        .ok ({ s with winnerDistribution := winnerDistribution }, [])
      else .error .InvalidDistribution
    else .error .InvalidDistribution
  else .error .Unauthorized

/-- `set_fee_percentage` (lines 105-109). -/
def set_fee_percentage (s : Storage) (sender : Addr) (feePercentage : Nat) : Result :=
  if is_admin s sender then
    if feePercentage ≤ 100 then .ok ({ s with feePercentage := feePercentage }, [])
    else .error .InvalidOperation
  else .error .Unauthorized

/-- The per-game body of the `check_deadlines` loop (lines 113-116). -/
def sweep_game (now : Int) (g : Game) : Game :=
  if g.started = false ∧ g.deadline < now then { g with started := true } else g

/-- `check_deadlines` (lines 111-116): scan every stored game; no privilege
gate in the source. -/
def check_deadlines (s : Storage) (now : Int) : Result :=
  .ok ({ s with games := s.games.map (sweep_game now) }, [])

/-- `add_admin` (lines 118-121). -/
def add_admin (s : Storage) (sender : Addr) (admin : Addr) : Result :=
  if sender = s.owner then .ok ({ s with admins := setAdd admin s.admins }, [])
  else .error .Unauthorized

/-- `remove_admin` (lines 123-127). -/
def remove_admin (s : Storage) (sender : Addr) (admin : Addr) : Result :=
  if sender = s.owner then
    if admin = s.owner then .error .InvalidOperation
    else .ok ({ s with admins := setRemove admin s.admins }, [])
  else .error .Unauthorized

/-- `transfer_ownership` (lines 129-134). -/
def transfer_ownership (s : Storage) (sender : Addr) (new_owner : Addr) : Result :=
  if sender = s.owner then
    .ok ({ s with
            owner := new_owner
            admins := setAdd new_owner (setRemove sender s.admins) }, [])
  else .error .Unauthorized

/-- `withdraw_fees` (lines 136-140). -/
def withdraw_fees (s : Storage) (sender : Addr) : Result :=
  if sender = s.owner then
    .ok ({ s with totalFee := 0 }, [(s.owner, s.totalFee)])
  else .error .Unauthorized

/-- One constructor per entry point of the contract. -/
inductive Op where
  | create_game (maxParticipants : Nat) (deadline : Int)
  | join_game (game_id : Nat) (amount : Nat)
  | start_game (game_id : Nat)
  | end_game (game_id : Nat) (winners : List Addr)
  | cancel_game (game_id : Nat)
  | set_max_participants (game_id : Nat) (maxParticipants : Nat)
  | set_winner_distribution (winnerDistribution : List Nat)
  | set_fee_percentage (feePercentage : Nat)
  | check_deadlines
  | add_admin (admin : Addr)
  | remove_admin (admin : Addr)
  | transfer_ownership (new_owner : Addr)
  | withdraw_fees
deriving DecidableEq

/-- Dispatch of an external call to the corresponding entry point, with the
SmartPy context (sp.sender, sp.now) made explicit. -/
def step (s : Storage) (sender : Addr) (now : Int) : Op → Result
  | .create_game m d => create_game s sender now m d
  | .join_game g a => join_game s sender now g a
  | .start_game g => start_game s sender g
  | .end_game g w => end_game s sender g w
  | .cancel_game g => cancel_game s sender g
  | .set_max_participants g m => set_max_participants s sender g m
  | .set_winner_distribution d => set_winner_distribution s sender d
  | .set_fee_percentage f => set_fee_percentage s sender f
  | .check_deadlines => check_deadlines s now
  | .add_admin a => add_admin s sender a
  | .remove_admin a => remove_admin s sender a
  | .transfer_ownership a => transfer_ownership s sender a
  | .withdraw_fees => withdraw_fees s sender

/-- The initial storage of `GameContract.__init__` (lines 4-21). -/
def initStorage (owner : Addr) : Storage :=
  { games := []
    gameCounter := 0
    feePercentage := 2
    numWinners := 3
    winnerDistribution := [50, 30, 20]
    owner := owner
    admins := [owner]
    totalFee := 0 }

/-- Storages reachable from some initial storage by successful calls;
rejected calls leave the storage unchanged, so they do not add states. -/
inductive Reachable : Storage → Prop
  | init (owner : Addr) : Reachable (initStorage owner)
  | tx (s : Storage) (sender : Addr) (now : Int) (op : Op) (s' : Storage)
      (tr : List Transfer) : Reachable s → step s sender now op = .ok (s', tr) →
      Reachable s'

/-- Global configuration invariant used by `end_game`: the distribution table
has length `numWinners`, sums to 100, and the fee percentage is at most
100. -/
def ConfigInv (s : Storage) : Prop :=
  s.winnerDistribution.length = s.numWinners ∧
    s.winnerDistribution.sum = 100 ∧ s.feePercentage ≤ 100

/-- Per-game accounting invariant: the recorded deposits never exceed
`totalAmount` (they can be strictly below it after a repeated join). -/
def GamesInv (s : Storage) : Prop :=
  ∀ (i : Nat) (g : Game), s.games[i]? = some g → sumValues g.participants ≤ g.totalAmount

/-! Concrete storages used as witnesses and counterexamples.  They replay the
scenario of the source's test harness with owner 0 and participants 1, 2, 3:
create a game (capacity 3, deadline offset 60) at time 0, then join with
1000 mutez each. -/

/-- Game 0 right after `create_game(maxParticipants = 3, deadline = 60)`. -/
def G_open : Game :=
  { participants := [], totalAmount := 0, started := false, ended := false,
    maxParticipants := 3, deadline := 60 }

/-- Game 0 after participant 1 joined with 1000. -/
def G_a1 : Game := { G_open with participants := [(1, 1000)], totalAmount := 1000 }

/-- Game 0 after participants 1 and 2 joined. -/
def G_a12 : Game :=
  { G_open with participants := [(1, 1000), (2, 1000)], totalAmount := 2000 }

/-- Game 0 after participants 1, 2, 3 joined: full, hence auto-started. -/
def G_a123 : Game :=
  { G_open with
    participants := [(1, 1000), (2, 1000), (3, 1000)]
    totalAmount := 3000, started := true }

/-- `G_a123` after a normal `end_game`. -/
def G_done : Game := { G_a123 with ended := true }

/-- Game 0 after participant 1 joined twice with 1000: the second join
overwrote the map entry but still added to `totalAmount`. -/
def G_twice : Game := { G_a1 with totalAmount := 2000 }

/-- `G_twice` after `cancel_game`. -/
def G_twice_c : Game := { G_twice with ended := true }

/-- Storage after `create_game` by owner 0 at time 0. -/
def S1 : Storage :=
  { games := [G_open], gameCounter := 1, feePercentage := 2, numWinners := 3,
    winnerDistribution := [50, 30, 20], owner := 0, admins := [0], totalFee := 0 }

/-- After participant 1 joined game 0. -/
def S2 : Storage := { S1 with games := [G_a1] }

/-- After participants 1 and 2 joined game 0. -/
def S3 : Storage := { S1 with games := [G_a12] }

/-- After participants 1, 2, 3 joined game 0 (auto-started). -/
def S4 : Storage := { S1 with games := [G_a123] }

/-- After `set_fee_percentage(5)`. -/
def S5 : Storage := { S4 with feePercentage := 5 }

/-- After `end_game(0, [1, 2, 3])`: fee 150 collected, game ended. -/
def S6 : Storage := { S5 with games := [G_done], totalFee := 150 }

/-- The transfers emitted by that `end_game`: prize 2850 split 50/30/20. -/
def TR6 : List Transfer := [(1, 1425), (2, 855), (3, 570)]

/-- After participant 1 joined game 0 of `S1` twice with 1000 each. -/
def SB : Storage := { S1 with games := [G_twice] }

/-- `SB` after `cancel_game(0)`. -/
def SBC : Storage := { SB with games := [G_twice_c] }

/-- `G_open` force-started by the deadline sweeper. -/
def G_swept : Game := { G_open with started := true }

/-- `S1` after `check_deadlines` at time 70 (deadline 60 has passed). -/
def SD : Storage := { S1 with games := [G_swept] }

/-! ## Helper lemmas -/

theorem sumValues_append (l l' : List (Addr × Nat)) :
    sumValues (l ++ l') = sumValues l + sumValues l' := by
  simp [sumValues]

theorem mapInsert_of_forall_ne (k : Addr) (v : Nat) :
    ∀ l : List (Addr × Nat), (∀ p ∈ l, p.1 ≠ k) → mapInsert k v l = l ++ [(k, v)]
  | [], _ => rfl
  | (k₀, v₀) :: rest, h => by
    have hk : k₀ ≠ k := h (k₀, v₀) (List.mem_cons_self _ _)
    simp only [mapInsert, if_neg hk, List.cons_append, List.cons.injEq, true_and]
    exact mapInsert_of_forall_ne k v rest (fun p hp => h p (List.mem_cons_of_mem _ hp))

theorem sumValues_mapInsert_le (k : Addr) (v : Nat) :
    ∀ l : List (Addr × Nat), sumValues (mapInsert k v l) ≤ sumValues l + v
  | [] => by simp [mapInsert, sumValues]
  | (k₀, v₀) :: rest => by
    by_cases hk : k₀ = k
    · simp only [mapInsert, if_pos hk, sumValues, List.map_cons, List.sum_cons]
      omega
    · simp only [mapInsert, if_neg hk, sumValues, List.map_cons, List.sum_cons]
      have := sumValues_mapInsert_le k v rest
      simp only [sumValues] at this
      omega

theorem div_add_div_le (a b c : Nat) : a / c + b / c ≤ (a + b) / c := by
  rcases Nat.eq_zero_or_pos c with hc | hc
  · simp [hc]
  · rw [Nat.le_div_iff_mul_le hc, Nat.add_mul]
    exact Nat.add_le_add (Nat.div_mul_le_self a c) (Nat.div_mul_le_self b c)

theorem shares_sum_le (prize : Nat) :
    ∀ dist : List Nat,
      ((dist.map fun p => split_tokens prize p 100).sum ≤ prize * dist.sum / 100)
  | [] => by simp
  | p :: rest => by
    simp only [List.map_cons, List.sum_cons, split_tokens]
    calc prize * p / 100 + ((rest.map fun q => split_tokens prize q 100).sum)
        ≤ prize * p / 100 + prize * rest.sum / 100 :=
          Nat.add_le_add_left (shares_sum_le prize rest) _
      _ ≤ (prize * p + prize * rest.sum) / 100 := div_add_div_le _ _ _
      _ = prize * (p + rest.sum) / 100 := by rw [Nat.mul_add]

theorem split_tokens_le (amount quantity : Nat) (h : quantity ≤ 100) :
    split_tokens amount quantity 100 ≤ amount := by
  calc amount * quantity / 100 ≤ amount * 100 / 100 :=
        Nat.div_le_div_right (Nat.mul_le_mul_left amount h)
    _ = amount := Nat.mul_div_cancel amount (by omega)

theorem prize_transfers_take (prize : Nat) (dist : List Nat) (winners : List Addr) :
    ∀ n : Nat, n ≤ dist.length → n ≤ winners.length →
      prize_transfers prize dist winners n =
        some ((winners.take n).zip ((dist.take n).map fun p => split_tokens prize p 100))
  | 0, _, _ => by simp [prize_transfers]
  | n + 1, hd, hw => by
    have hdn : n < dist.length := hd
    have hwn : n < winners.length := hw
    have ih := prize_transfers_take prize dist winners n (Nat.le_of_succ_le hd)
      (Nat.le_of_succ_le hw)
    simp only [prize_transfers, ih, List.getElem?_eq_getElem hdn, List.getElem?_eq_getElem hwn]
    rw [List.take_succ, List.take_succ, List.getElem?_eq_getElem hdn,
      List.getElem?_eq_getElem hwn]
    simp only [Option.toList_some, List.map_append]
    rw [List.zip_append (by simp [List.length_take]; omega)]
    simp

theorem prize_transfers_full (prize : Nat) (dist : List Nat) (winners : List Addr) (n : Nat)
    (hd : dist.length = n) (hw : winners.length = n) :
    prize_transfers prize dist winners n =
      some (winners.zip (dist.map fun p => split_tokens prize p 100)) := by
  subst hd
  rw [prize_transfers_take prize dist winners dist.length (Nat.le_refl _) (by omega),
    List.take_length, List.take_of_length_le (by omega)]

/-! ## Success characterizations of the entry points -/

theorem create_game_ok {s : Storage} {sender : Addr} {now : Int} {m : Nat} {d : Int}
    {s' : Storage} {tr : List Transfer}
    (h : create_game s sender now m d = .ok (s', tr)) :
    is_admin s sender = true ∧ tr = [] ∧
      s' = { s with
              games := s.games ++ [{ participants := []
                                     totalAmount := 0
                                     started := false
                                     ended := false
                                     maxParticipants := m
                                     deadline := now + d }]
              gameCounter := s.gameCounter + 1 } := by
  unfold create_game at h
  split at h
  · simp only [Except.ok.injEq, Prod.mk.injEq] at h
    exact ⟨by assumption, h.2.symm, h.1.symm⟩
  · exact absurd h (by simp)

theorem join_game_ok {s : Storage} {sender : Addr} {now : Int} {game_id amount : Nat}
    {s' : Storage} {tr : List Transfer}
    (h : join_game s sender now game_id amount = .ok (s', tr)) :
    ∃ game, s.games[game_id]? = some game ∧ game.started = false ∧ game.ended = false ∧
      now ≤ game.deadline ∧ game.participants.length < game.maxParticipants ∧
      tr = [] ∧
      s' = { s with games := s.games.set game_id (join_update sender amount game) } := by
  unfold join_game at h
  split at h
  next heq => exact absurd h (by simp)
  next game heq =>
    refine ⟨game, heq, ?_⟩
    split at h
    · exact absurd h (by simp)
    split at h
    · exact absurd h (by simp)
    split at h
    · exact absurd h (by simp)
    split at h
    · exact absurd h (by simp)
    simp only [Except.ok.injEq, Prod.mk.injEq] at h
    refine ⟨by simp_all, by simp_all, by omega, by omega, h.2.symm, h.1.symm⟩

theorem start_game_ok {s : Storage} {sender : Addr} {game_id : Nat}
    {s' : Storage} {tr : List Transfer}
    (h : start_game s sender game_id = .ok (s', tr)) :
    ∃ game, is_admin s sender = true ∧ s.games[game_id]? = some game ∧ tr = [] ∧
      s' = { s with games := s.games.set game_id { game with started := true } } := by
  unfold start_game at h
  split at h
  · split at h
    next heq => exact absurd h (by simp)
    next game heq =>
      simp only [Except.ok.injEq, Prod.mk.injEq] at h
      exact ⟨game, by assumption, heq, h.2.symm, h.1.symm⟩
  · exact absurd h (by simp)

theorem end_game_ok {s : Storage} {sender : Addr} {game_id : Nat} {winners : List Addr}
    {s' : Storage} {tr : List Transfer}
    (h : end_game s sender game_id winners = .ok (s', tr)) :
    ∃ game, is_admin s sender = true ∧ s.games[game_id]? = some game ∧
      game.started = true ∧ game.ended = false ∧ winners.length = s.numWinners ∧
      prize_transfers (game.totalAmount - split_tokens game.totalAmount s.feePercentage 100)
        s.winnerDistribution winners s.numWinners = some tr ∧
      s' = { s with
              totalFee := s.totalFee + split_tokens game.totalAmount s.feePercentage 100
              games := s.games.set game_id { game with ended := true } } := by
  simp only [end_game] at h
  split at h
  · split at h
    next heq => exact absurd h (by simp)
    next game heq =>
      refine ⟨game, by assumption, heq, ?_⟩
      split at h
      · split at h
        · exact absurd h (by simp)
        split at h
        · split at h
          next heq2 => exact absurd h (by simp)
          next tr0 heq2 =>
            simp only [Except.ok.injEq, Prod.mk.injEq] at h
            refine ⟨by assumption, by simp_all, by assumption, ?_, h.1.symm⟩
            rw [heq2, h.2]
        · exact absurd h (by simp)
      · exact absurd h (by simp)
  · exact absurd h (by simp)

theorem cancel_game_ok {s : Storage} {sender : Addr} {game_id : Nat}
    {s' : Storage} {tr : List Transfer}
    (h : cancel_game s sender game_id = .ok (s', tr)) :
    ∃ game, is_admin s sender = true ∧ s.games[game_id]? = some game ∧
      game.ended = false ∧ tr = game.participants ∧
      s' = { s with games := s.games.set game_id { game with ended := true } } := by
  unfold cancel_game at h
  split at h
  · split at h
    next heq => exact absurd h (by simp)
    next game heq =>
      split at h
      · exact absurd h (by simp)
      simp only [Except.ok.injEq, Prod.mk.injEq] at h
      exact ⟨game, by assumption, heq, by simp_all, h.2.symm, h.1.symm⟩
  · exact absurd h (by simp)

theorem set_max_participants_ok {s : Storage} {sender : Addr} {game_id m : Nat}
    {s' : Storage} {tr : List Transfer}
    (h : set_max_participants s sender game_id m = .ok (s', tr)) :
    ∃ game, is_admin s sender = true ∧ s.games[game_id]? = some game ∧
      game.started = false ∧ tr = [] ∧
      s' = { s with games := s.games.set game_id { game with maxParticipants := m } } := by
  unfold set_max_participants at h
  split at h
  · split at h
    next heq => exact absurd h (by simp)
    next game heq =>
      split at h
      · exact absurd h (by simp)
      simp only [Except.ok.injEq, Prod.mk.injEq] at h
      exact ⟨game, by assumption, heq, by simp_all, h.2.symm, h.1.symm⟩
  · exact absurd h (by simp)

theorem set_winner_distribution_ok {s : Storage} {sender : Addr} {d : List Nat}
    {s' : Storage} {tr : List Transfer}
    (h : set_winner_distribution s sender d = .ok (s', tr)) :
    is_admin s sender = true ∧ d.length = s.numWinners ∧ d.sum = 100 ∧ tr = [] ∧
      s' = { s with winnerDistribution := d } := by
  unfold set_winner_distribution at h
  split at h
  · split at h
    · split at h
      · simp only [Except.ok.injEq, Prod.mk.injEq] at h
        exact ⟨by assumption, by assumption, by assumption, h.2.symm, h.1.symm⟩
      · exact absurd h (by simp)
    · exact absurd h (by simp)
  · exact absurd h (by simp)

theorem set_fee_percentage_ok {s : Storage} {sender : Addr} {f : Nat}
    {s' : Storage} {tr : List Transfer}
    (h : set_fee_percentage s sender f = .ok (s', tr)) :
    is_admin s sender = true ∧ f ≤ 100 ∧ tr = [] ∧
      s' = { s with feePercentage := f } := by
  unfold set_fee_percentage at h
  split at h
  · split at h
    · simp only [Except.ok.injEq, Prod.mk.injEq] at h
      exact ⟨by assumption, by assumption, h.2.symm, h.1.symm⟩
    · exact absurd h (by simp)
  · exact absurd h (by simp)

theorem check_deadlines_ok {s : Storage} {now : Int} {s' : Storage} {tr : List Transfer}
    (h : check_deadlines s now = .ok (s', tr)) :
    tr = [] ∧ s' = { s with games := s.games.map (sweep_game now) } := by
  unfold check_deadlines at h
  simp only [Except.ok.injEq, Prod.mk.injEq] at h
  exact ⟨h.2.symm, h.1.symm⟩

theorem add_admin_ok {s : Storage} {sender admin : Addr}
    {s' : Storage} {tr : List Transfer}
    (h : add_admin s sender admin = .ok (s', tr)) :
    sender = s.owner ∧ tr = [] ∧ s' = { s with admins := setAdd admin s.admins } := by
  unfold add_admin at h
  split at h
  · simp only [Except.ok.injEq, Prod.mk.injEq] at h
    exact ⟨by assumption, h.2.symm, h.1.symm⟩
  · exact absurd h (by simp)

theorem remove_admin_ok {s : Storage} {sender admin : Addr}
    {s' : Storage} {tr : List Transfer}
    (h : remove_admin s sender admin = .ok (s', tr)) :
    sender = s.owner ∧ admin ≠ s.owner ∧ tr = [] ∧
      s' = { s with admins := setRemove admin s.admins } := by
  unfold remove_admin at h
  split at h
  · split at h
    · exact absurd h (by simp)
    · simp only [Except.ok.injEq, Prod.mk.injEq] at h
      exact ⟨by assumption, by assumption, h.2.symm, h.1.symm⟩
  · exact absurd h (by simp)

theorem transfer_ownership_ok {s : Storage} {sender new_owner : Addr}
    {s' : Storage} {tr : List Transfer}
    (h : transfer_ownership s sender new_owner = .ok (s', tr)) :
    sender = s.owner ∧ tr = [] ∧
      s' = { s with
              owner := new_owner
              admins := setAdd new_owner (setRemove sender s.admins) } := by
  unfold transfer_ownership at h
  split at h
  · simp only [Except.ok.injEq, Prod.mk.injEq] at h
    exact ⟨by assumption, h.2.symm, h.1.symm⟩
  · exact absurd h (by simp)

theorem withdraw_fees_ok {s : Storage} {sender : Addr}
    {s' : Storage} {tr : List Transfer}
    (h : withdraw_fees s sender = .ok (s', tr)) :
    sender = s.owner ∧ tr = [(s.owner, s.totalFee)] ∧ s' = { s with totalFee := 0 } := by
  unfold withdraw_fees at h
  split at h
  · simp only [Except.ok.injEq, Prod.mk.injEq] at h
    exact ⟨by assumption, h.2.symm, h.1.symm⟩
  · exact absurd h (by simp)

/-! ## Small facts about `sweep_game` and `List.set` lookups -/

theorem sweep_game_participants (now : Int) (g : Game) :
    (sweep_game now g).participants = g.participants := by
  unfold sweep_game; split <;> rfl

theorem sweep_game_totalAmount (now : Int) (g : Game) :
    (sweep_game now g).totalAmount = g.totalAmount := by
  unfold sweep_game; split <;> rfl

theorem sweep_game_ended (now : Int) (g : Game) :
    (sweep_game now g).ended = g.ended := by
  unfold sweep_game; split <;> rfl

theorem sweep_game_maxParticipants (now : Int) (g : Game) :
    (sweep_game now g).maxParticipants = g.maxParticipants := by
  unfold sweep_game; split <;> rfl

theorem sweep_game_deadline (now : Int) (g : Game) :
    (sweep_game now g).deadline = g.deadline := by
  unfold sweep_game; split <;> rfl

theorem sweep_game_started (now : Int) (g : Game) :
    (sweep_game now g).started = (g.started || decide (g.deadline < now)) := by
  unfold sweep_game
  split
  next hc => simp [hc.1, hc.2]
  next hc =>
    cases hs : g.started with
    | true => simp
    | false =>
      simp only [Bool.false_or]
      have : ¬ g.deadline < now := fun hlt => hc ⟨hs, hlt⟩
      simp [this]

theorem sweep_game_idem (now : Int) (g : Game) :
    sweep_game now (sweep_game now g) = sweep_game now g := by
  by_cases hc : g.started = false ∧ g.deadline < now
  · have h1 : sweep_game now g = { g with started := true } := by
      simp only [sweep_game, if_pos hc]
    rw [h1]
    simp only [sweep_game]
    rw [if_neg (by simp)]
  · have h1 : sweep_game now g = g := by
      simp only [sweep_game, if_neg hc]
    rw [h1, h1]

theorem games_set_lookup (l : List Game) (j : Nat) (a : Game) (i : Nat) (g : Game)
    (hg : l[i]? = some g) :
    (l.set j a)[i]? = some g ∨ (i = j ∧ l[j]? = some g ∧ (l.set j a)[i]? = some a) := by
  by_cases hij : i = j
  · subst hij
    right
    refine ⟨rfl, hg, ?_⟩
    rw [List.getElem?_set_self', hg]
    rfl
  · left
    rw [List.getElem?_set_ne (fun hh => hij hh.symm)]
    exact hg

theorem set_lookup_cases {l : List Game} {j : Nat} {a : Game} {i : Nat} {g : Game}
    (hg : (l.set j a)[i]? = some g) :
    (i ≠ j ∧ l[i]? = some g) ∨ (i = j ∧ g = a ∧ ∃ g0, l[i]? = some g0) := by
  by_cases hij : i = j
  · subst hij
    rw [List.getElem?_set_self'] at hg
    right
    cases hl : l[i]? with
    | none => rw [hl] at hg; simp at hg
    | some g0 =>
      rw [hl] at hg
      simp only [Option.map_some, Option.some.injEq, Function.const_apply] at hg
      exact ⟨rfl, hg.symm, g0, rfl⟩
  · left
    rw [List.getElem?_set_ne (fun hh => hij hh.symm)] at hg
    exact ⟨hij, hg⟩

theorem map_lookup_cases {f : Game → Game} {l : List Game} {i : Nat} {g : Game}
    (hg : (l.map f)[i]? = some g) : ∃ g0, l[i]? = some g0 ∧ g = f g0 := by
  rw [List.getElem?_map] at hg
  cases hl : l[i]? with
  | none => rw [hl] at hg; simp at hg
  | some g0 =>
    rw [hl] at hg
    simp only [Option.map_some', Option.some.injEq] at hg
    exact ⟨g0, rfl, hg.symm⟩

/-! ## The configuration invariant holds in every reachable storage -/

theorem configInv_init (owner : Addr) : ConfigInv (initStorage owner) :=
  ⟨rfl, rfl, by show (2 : Nat) ≤ 100; omega⟩

theorem configInv_step {s : Storage} {sender : Addr} {now : Int} {op : Op}
    {s' : Storage} {tr : List Transfer}
    (hinv : ConfigInv s) (h : step s sender now op = .ok (s', tr)) : ConfigInv s' := by
  cases op with
  | create_game m d =>
    obtain ⟨-, -, hs⟩ := create_game_ok h
    subst hs; exact hinv
  | join_game gid a =>
    obtain ⟨game, -, -, -, -, -, -, hs⟩ := join_game_ok h
    subst hs; exact hinv
  | start_game gid =>
    obtain ⟨game, -, -, -, hs⟩ := start_game_ok h
    subst hs; exact hinv
  | end_game gid w =>
    obtain ⟨game, -, -, -, -, -, -, hs⟩ := end_game_ok h
    subst hs; exact hinv
  | cancel_game gid =>
    obtain ⟨game, -, -, -, -, hs⟩ := cancel_game_ok h
    subst hs; exact hinv
  | set_max_participants gid m =>
    obtain ⟨game, -, -, -, -, hs⟩ := set_max_participants_ok h
    subst hs; exact hinv
  | set_winner_distribution d =>
    obtain ⟨-, hlen, hsum, -, hs⟩ := set_winner_distribution_ok h
    subst hs; exact ⟨hlen, hsum, hinv.2.2⟩
  | set_fee_percentage f =>
    obtain ⟨-, hf, -, hs⟩ := set_fee_percentage_ok h
    subst hs; exact ⟨hinv.1, hinv.2.1, hf⟩
  | check_deadlines =>
    obtain ⟨-, hs⟩ := check_deadlines_ok h
    subst hs; exact hinv
  | add_admin a =>
    obtain ⟨-, -, hs⟩ := add_admin_ok h
    subst hs; exact hinv
  | remove_admin a =>
    obtain ⟨-, -, -, hs⟩ := remove_admin_ok h
    subst hs; exact hinv
  | transfer_ownership a =>
    obtain ⟨-, -, hs⟩ := transfer_ownership_ok h
    subst hs; exact hinv
  | withdraw_fees =>
    obtain ⟨-, -, hs⟩ := withdraw_fees_ok h
    subst hs; exact hinv

theorem configInv_reachable {s : Storage} (h : Reachable s) : ConfigInv s := by
  induction h with
  | init owner => exact configInv_init owner
  | tx s sender now op s' tr hr hstep ih => exact configInv_step ih hstep

/-! ## The accounting invariant holds in every reachable storage -/

theorem gamesInv_init (owner : Addr) : GamesInv (initStorage owner) := by
  intro i g hg
  simp [initStorage] at hg

theorem gamesInv_step {s : Storage} {sender : Addr} {now : Int} {op : Op}
    {s' : Storage} {tr : List Transfer}
    (hinv : GamesInv s) (h : step s sender now op = .ok (s', tr)) : GamesInv s' := by
  cases op with
  | create_game m d =>
    obtain ⟨-, -, hs⟩ := create_game_ok h
    subst hs
    intro i g hg
    by_cases hi : i < s.games.length
    · rw [List.getElem?_append_left hi] at hg
      exact hinv i g hg
    · rw [List.getElem?_append_right (Nat.le_of_not_lt hi)] at hg
      cases hk : i - s.games.length with
      | zero =>
        rw [hk] at hg
        simp only [List.getElem?_cons_zero, Option.some.injEq] at hg
        subst hg
        simp [sumValues]
      | succ k =>
        rw [hk] at hg
        simp at hg
  | join_game gid a =>
    obtain ⟨game, hlook, -, -, -, -, -, hs⟩ := join_game_ok h
    subst hs
    intro i g hg
    rcases set_lookup_cases hg with ⟨-, horig⟩ | ⟨-, hga, -⟩
    · exact hinv i g horig
    · subst hga
      have h1 := sumValues_mapInsert_le sender a game.participants
      have h2 := hinv gid game hlook
      simp only [join_update]
      omega
  | start_game gid =>
    obtain ⟨game, -, hlook, -, hs⟩ := start_game_ok h
    subst hs
    intro i g hg
    rcases set_lookup_cases hg with ⟨-, horig⟩ | ⟨-, hga, -⟩
    · exact hinv i g horig
    · subst hga
      simpa using hinv gid game hlook
  | end_game gid w =>
    obtain ⟨game, -, hlook, -, -, -, -, hs⟩ := end_game_ok h
    subst hs
    intro i g hg
    rcases set_lookup_cases hg with ⟨-, horig⟩ | ⟨-, hga, -⟩
    · exact hinv i g horig
    · subst hga
      simpa using hinv gid game hlook
  | cancel_game gid =>
    obtain ⟨game, -, hlook, -, -, hs⟩ := cancel_game_ok h
    subst hs
    intro i g hg
    rcases set_lookup_cases hg with ⟨-, horig⟩ | ⟨-, hga, -⟩
    · exact hinv i g horig
    · subst hga
      simpa using hinv gid game hlook
  | set_max_participants gid m =>
    obtain ⟨game, -, hlook, -, -, hs⟩ := set_max_participants_ok h
    subst hs
    intro i g hg
    rcases set_lookup_cases hg with ⟨-, horig⟩ | ⟨-, hga, -⟩
    · exact hinv i g horig
    · subst hga
      simpa using hinv gid game hlook
  | set_winner_distribution d =>
    obtain ⟨-, -, -, -, hs⟩ := set_winner_distribution_ok h
    subst hs; exact hinv
  | set_fee_percentage f =>
    obtain ⟨-, -, -, hs⟩ := set_fee_percentage_ok h
    subst hs; exact hinv
  | check_deadlines =>
    obtain ⟨-, hs⟩ := check_deadlines_ok h
    subst hs
    intro i g hg
    obtain ⟨g0, hg0, hge⟩ := map_lookup_cases hg
    subst hge
    rw [sweep_game_participants, sweep_game_totalAmount]
    exact hinv i g0 hg0
  | add_admin a =>
    obtain ⟨-, -, hs⟩ := add_admin_ok h
    subst hs; exact hinv
  | remove_admin a =>
    obtain ⟨-, -, -, hs⟩ := remove_admin_ok h
    subst hs; exact hinv
  | transfer_ownership a =>
    obtain ⟨-, -, hs⟩ := transfer_ownership_ok h
    subst hs; exact hinv
  | withdraw_fees =>
    obtain ⟨-, -, hs⟩ := withdraw_fees_ok h
    subst hs; exact hinv

theorem gamesInv_reachable {s : Storage} (h : Reachable s) : GamesInv s := by
  induction h with
  | init owner => exact gamesInv_init owner
  | tx s sender now op s' tr hr hstep ih => exact gamesInv_step ih hstep

/-! ## Reachability of the concrete storages -/

theorem lookup_lt_length {l : List Game} {i : Nat} {g : Game} (h : l[i]? = some g) :
    i < l.length := by
  rcases List.getElem?_eq_some_iff.mp h with ⟨hlt, -⟩
  exact hlt

theorem reach_S1 : Reachable S1 :=
  Reachable.tx (initStorage 0) 0 0 (Op.create_game 3 60) S1 [] (Reachable.init 0) rfl

theorem reach_S2 : Reachable S2 :=
  Reachable.tx S1 1 0 (Op.join_game 0 1000) S2 [] reach_S1 rfl

theorem reach_S3 : Reachable S3 :=
  Reachable.tx S2 2 0 (Op.join_game 0 1000) S3 [] reach_S2 rfl

theorem reach_S4 : Reachable S4 :=
  Reachable.tx S3 3 0 (Op.join_game 0 1000) S4 [] reach_S3 rfl

theorem reach_S5 : Reachable S5 :=
  Reachable.tx S4 0 0 (Op.set_fee_percentage 5) S5 [] reach_S4 rfl

theorem reach_S6 : Reachable S6 :=
  Reachable.tx S5 0 0 (Op.end_game 0 [1, 2, 3]) S6 TR6 reach_S5 rfl

theorem reach_SB : Reachable SB :=
  Reachable.tx S2 1 0 (Op.join_game 0 1000) SB [] reach_S2 rfl

/-- `sweep_game` in closed form: only `started` changes, to
`started || (deadline < now)`. -/
theorem sweep_game_eq (now : Int) (g : Game) :
    sweep_game now g = { g with started := g.started || decide (g.deadline < now) } := by
  cases g with
  | mk p t st e m d =>
    unfold sweep_game
    split
    next hc =>
      simp only at hc
      simp [hc.1, hc.2]
    next hc =>
      simp only at hc
      cases st with
      | true => simp
      | false =>
        have hnd : ¬ d < now := fun hlt => hc ⟨rfl, hlt⟩
        simp [hnd]

/-! ## Claims -/

/-- C4: for every game and every caller, `join_game` never succeeds when the
game is started, is ended, the current time is past its deadline, or its
participant count is at least `maxParticipants`; it fails with InvalidState
for started-or-ended, Expired for a passed deadline, and Full for a reached
capacity (checked in that order). -/
theorem C4_join_guards {s : Storage} {sender : Addr} {now : Int} {game_id amount : Nat}
    {game : Game} (hg : s.games[game_id]? = some game) :
    ((game.started = true ∨ game.ended = true) →
        join_game s sender now game_id amount = .error .InvalidState) ∧
      (game.started = false → game.ended = false → game.deadline < now →
        join_game s sender now game_id amount = .error .Expired) ∧
      (game.started = false → game.ended = false → now ≤ game.deadline →
        game.maxParticipants ≤ game.participants.length →
        join_game s sender now game_id amount = .error .Full) ∧
      ((game.started = true ∨ game.ended = true ∨ game.deadline < now ∨
          game.maxParticipants ≤ game.participants.length) →
        ∀ r : Storage × List Transfer, join_game s sender now game_id amount ≠ .ok r) := by
  refine ⟨?_, ?_, ?_, ?_⟩
  · rintro (hst | hen)
    · simp [join_game, hg, hst]
    · by_cases hst : game.started = true
      · simp [join_game, hg, hst]
      · simp only [Bool.not_eq_true] at hst
        simp [join_game, hg, hst, hen]
  · intro h1 h2 h3
    simp [join_game, hg, h1, h2, h3]
  · intro h1 h2 h3 h4
    simp [join_game, hg, h1, h2, Int.not_lt.mpr h3, h4]
  · rintro hdisj ⟨s', tr⟩ hok
    obtain ⟨game0, hg0, hst, hen, hdl, hlt, -, -⟩ := join_game_ok hok
    rw [hg] at hg0
    injection hg0 with he
    subst he
    rcases hdisj with h | h | h | h
    · rw [hst] at h; exact Bool.noConfusion h
    · rw [hen] at h; exact Bool.noConfusion h
    · omega
    · omega

/-- C4 witness: in storage `S4` game 0 has auto-started, so any further join
attempt is rejected with InvalidState. -/
theorem C4_witness :
    S4.games[0]? = some G_a123 ∧ join_game S4 9 0 0 500 = .error .InvalidState :=
  ⟨rfl, (C4_join_guards rfl).1 (Or.inl rfl)⟩

/-- C5: whenever a successful `join_game` brings the participant count to
exactly `maxParticipants`, the same invocation sets `started` to true: in the
post-state of any successful join, a full game is a started game. -/
theorem C5_auto_start {s : Storage} {sender : Addr} {now : Int} {game_id amount : Nat}
    {s' : Storage} {tr : List Transfer}
    (h : join_game s sender now game_id amount = .ok (s', tr)) :
    ∃ game', s'.games[game_id]? = some game' ∧
      (game'.participants.length = game'.maxParticipants → game'.started = true) := by
  obtain ⟨game, hg, -, -, -, -, -, hs⟩ := join_game_ok h
  subst hs
  refine ⟨join_update sender amount game, ?_, ?_⟩
  · exact List.getElem?_set_self (lookup_lt_length hg)
  · intro hlen
    simp only [join_update] at hlen ⊢
    rw [if_pos hlen]

/-- C5 witness: the third join of the test scenario fills game 0 (3 of 3)
and the resulting state `S4` has it started. -/
theorem C5_witness :
    ∃ game', S4.games[0]? = some game' ∧
      (game'.participants.length = game'.maxParticipants → game'.started = true) :=
  C5_auto_start (show join_game S3 3 0 0 1000 = .ok (S4, []) from rfl)

/-- C6: `check_deadlines` scans every stored game, flips `started` to true
for exactly those that are not started with deadline strictly before `now`
(leaving every other field unchanged), and is idempotent at the same time. -/
theorem C6_check_deadlines (s : Storage) (now : Int) {s' : Storage} {tr : List Transfer}
    (h : check_deadlines s now = .ok (s', tr)) :
    tr = [] ∧ s'.games.length = s.games.length ∧
      (∀ (i : Nat) (g : Game), s.games[i]? = some g →
        s'.games[i]? = some { g with started := g.started || decide (g.deadline < now) }) ∧
      check_deadlines s' now = .ok (s', []) := by
  obtain ⟨htr, hs⟩ := check_deadlines_ok h
  refine ⟨htr, by simp [hs], ?_, ?_⟩
  · intro i g hg
    rw [hs]
    dsimp only
    rw [List.getElem?_map, hg]
    simp only [Option.map_some']
    rw [sweep_game_eq]
  · have hgames : s'.games.map (sweep_game now) = s'.games := by
      rw [hs]
      dsimp only
      rw [List.map_map]
      exact List.map_congr_left (fun a _ => sweep_game_idem now a)
    have hdef : check_deadlines s' now =
        .ok ({ s' with games := s'.games.map (sweep_game now) }, []) := rfl
    rw [hdef, hgames]

/-- C6 witness: sweeping `S1` at time 70 starts the unfilled game 0 (its
deadline 60 has passed) and a second sweep at time 70 changes nothing. -/
theorem C6_witness :
    ([] : List Transfer) = [] ∧ SD.games.length = S1.games.length ∧
      (∀ (i : Nat) (g : Game), S1.games[i]? = some g →
        SD.games[i]? = some { g with started := g.started || decide (g.deadline < 70) }) ∧
      check_deadlines SD 70 = .ok (SD, []) :=
  C6_check_deadlines S1 70 (show check_deadlines S1 70 = .ok (SD, []) from rfl)

/-- C7: across every operation of the contract, the `started` and `ended`
flags of every stored game are monotone: a successful step never changes
either flag from true back to false. -/
theorem C7_flags_monotonic {s : Storage} {sender : Addr} {now : Int} {op : Op}
    {s' : Storage} {tr : List Transfer} (h : step s sender now op = .ok (s', tr))
    {gid : Nat} {g : Game} (hg : s.games[gid]? = some g) :
    ∃ g', s'.games[gid]? = some g' ∧ (g.started = true → g'.started = true) ∧
      (g.ended = true → g'.ended = true) := by
  cases op with
  | create_game m d =>
    obtain ⟨-, -, hs⟩ := create_game_ok h
    subst hs
    exact ⟨g, by rw [List.getElem?_append_left (lookup_lt_length hg)]; exact hg, id, id⟩
  | join_game gid0 a =>
    obtain ⟨game, hlook, -, -, -, -, -, hs⟩ := join_game_ok h
    subst hs
    rcases games_set_lookup s.games gid0 (join_update sender a game) gid g hg with
      hkeep | ⟨hij, hjg, hnew⟩
    · exact ⟨g, hkeep, id, id⟩
    · rw [hlook] at hjg
      injection hjg with he
      subst he
      refine ⟨join_update sender a game, hnew, ?_, fun h1 => h1⟩
      intro h1
      simp only [join_update]
      split
      · rfl
      · exact h1
  | start_game gid0 =>
    obtain ⟨game, -, hlook, -, hs⟩ := start_game_ok h
    subst hs
    rcases games_set_lookup s.games gid0 { game with started := true } gid g hg with
      hkeep | ⟨hij, hjg, hnew⟩
    · exact ⟨g, hkeep, id, id⟩
    · rw [hlook] at hjg
      injection hjg with he
      subst he
      exact ⟨_, hnew, fun _ => rfl, fun h1 => h1⟩
  | end_game gid0 w =>
    obtain ⟨game, -, hlook, -, -, -, -, hs⟩ := end_game_ok h
    subst hs
    rcases games_set_lookup s.games gid0 { game with ended := true } gid g hg with
      hkeep | ⟨hij, hjg, hnew⟩
    · exact ⟨g, hkeep, id, id⟩
    · rw [hlook] at hjg
      injection hjg with he
      subst he
      exact ⟨_, hnew, fun h1 => h1, fun _ => rfl⟩
  | cancel_game gid0 =>
    obtain ⟨game, -, hlook, -, -, hs⟩ := cancel_game_ok h
    subst hs
    rcases games_set_lookup s.games gid0 { game with ended := true } gid g hg with
      hkeep | ⟨hij, hjg, hnew⟩
    · exact ⟨g, hkeep, id, id⟩
    · rw [hlook] at hjg
      injection hjg with he
      subst he
      exact ⟨_, hnew, fun h1 => h1, fun _ => rfl⟩
  | set_max_participants gid0 m =>
    obtain ⟨game, -, hlook, -, -, hs⟩ := set_max_participants_ok h
    subst hs
    rcases games_set_lookup s.games gid0 { game with maxParticipants := m } gid g hg with
      hkeep | ⟨hij, hjg, hnew⟩
    · exact ⟨g, hkeep, id, id⟩
    · rw [hlook] at hjg
      injection hjg with he
      subst he
      exact ⟨_, hnew, fun h1 => h1, fun h1 => h1⟩
  | set_winner_distribution d =>
    obtain ⟨-, -, -, -, hs⟩ := set_winner_distribution_ok h
    subst hs
    exact ⟨g, hg, id, id⟩
  | set_fee_percentage f =>
    obtain ⟨-, -, -, hs⟩ := set_fee_percentage_ok h
    subst hs
    exact ⟨g, hg, id, id⟩
  | check_deadlines =>
    obtain ⟨-, hs⟩ := check_deadlines_ok h
    subst hs
    refine ⟨sweep_game now g, ?_, ?_, ?_⟩
    · dsimp only
      rw [List.getElem?_map, hg]
      rfl
    · intro h1
      rw [sweep_game_started]
      simp [h1]
    · intro h1
      rw [sweep_game_ended]
      exact h1
  | add_admin a =>
    obtain ⟨-, -, hs⟩ := add_admin_ok h
    subst hs
    exact ⟨g, hg, id, id⟩
  | remove_admin a =>
    obtain ⟨-, -, -, hs⟩ := remove_admin_ok h
    subst hs
    exact ⟨g, hg, id, id⟩
  | transfer_ownership a =>
    obtain ⟨-, -, hs⟩ := transfer_ownership_ok h
    subst hs
    exact ⟨g, hg, id, id⟩
  | withdraw_fees =>
    obtain ⟨-, -, hs⟩ := withdraw_fees_ok h
    subst hs
    exact ⟨g, hg, id, id⟩

/-- C7 witness: ending game 0 (step from `S5` to `S6`) keeps its `started`
flag true. -/
theorem C7_witness :
    ∃ g', S6.games[0]? = some g' ∧ (G_a123.started = true → g'.started = true) ∧
      (G_a123.ended = true → g'.ended = true) :=
  C7_flags_monotonic (show step S5 0 0 (Op.end_game 0 [1, 2, 3]) = .ok (S6, TR6) from rfl)
    (show S5.games[0]? = some G_a123 from rfl)

/-- C8: for a privileged caller, `set_winner_distribution` rejects every
table whose length differs from `numWinners` or whose sum differs from 100
(returning an error, hence no state change), and accepts and stores every
table meeting both conditions. -/
theorem C8_distribution_validation (s : Storage) (sender : Addr) (d : List Nat)
    (hadm : is_admin s sender = true) :
    ((d.length ≠ s.numWinners ∨ d.sum ≠ 100) →
        set_winner_distribution s sender d = .error .InvalidDistribution) ∧
      (d.length = s.numWinners → d.sum = 100 →
        set_winner_distribution s sender d = .ok ({ s with winnerDistribution := d }, [])) := by
  constructor
  · intro hbad
    unfold set_winner_distribution
    rw [if_pos hadm]
    by_cases hl : d.length = s.numWinners
    · rw [if_pos hl]
      have hsum : d.sum ≠ 100 := by
        rcases hbad with hb | hb
        · exact absurd hl hb
        · exact hb
      rw [if_neg hsum]
    · rw [if_neg hl]
  · intro h1 h2
    unfold set_winner_distribution
    rw [if_pos hadm, if_pos h1, if_pos h2]

/-- C8 witness: in `S1` (numWinners 3) the table [60, 40] of length 2 is
rejected and the table [20, 30, 50] is accepted and stored. -/
theorem C8_witness :
    is_admin S1 0 = true ∧
      set_winner_distribution S1 0 [60, 40] = .error .InvalidDistribution ∧
      set_winner_distribution S1 0 [20, 30, 50] =
        .ok ({ S1 with winnerDistribution := [20, 30, 50] }, []) :=
  ⟨rfl, (C8_distribution_validation S1 0 [60, 40] rfl).1 (Or.inl (by decide)),
    (C8_distribution_validation S1 0 [20, 30, 50] rfl).2 rfl rfl⟩

/-- C9: for a privileged caller and a stored, not-started game,
`set_max_participants` succeeds for every `newMax` — including zero and
values strictly below the current participant count; no validation is
performed on the new value. -/
theorem C9_set_max_unchecked (s : Storage) (sender : Addr) (game_id : Nat) (game : Game)
    (hadm : is_admin s sender = true) (hg : s.games[game_id]? = some game)
    (hst : game.started = false) (m : Nat) :
    set_max_participants s sender game_id m =
      .ok ({ s with games := s.games.set game_id { game with maxParticipants := m } }, []) := by
  have hne : game.started ≠ true := by rw [hst]; exact Bool.noConfusion
  simp [set_max_participants, hadm, hg, hne]

/-- C9 witness: in `S2` game 0 has one participant and is not started;
setting `maxParticipants` to 0 (below the current count 1) succeeds. -/
theorem C9_witness :
    is_admin S2 0 = true ∧ S2.games[0]? = some G_a1 ∧ G_a1.started = false ∧
      0 < G_a1.participants.length ∧
      set_max_participants S2 0 0 0 =
        .ok ({ S2 with games := S2.games.set 0 { G_a1 with maxParticipants := 0 } }, []) :=
  ⟨rfl, rfl, rfl, by decide, C9_set_max_unchecked S2 0 0 G_a1 rfl rfl rfl 0⟩

/-- C10: a successful `join_game` on game `game_id` changes only that game's
`participants`, `totalAmount` and `started` fields: every other stored game
and all global fields (gameCounter, feePercentage, numWinners,
winnerDistribution, owner, admins, totalFee) are unchanged, and the joined
game's `ended`, `maxParticipants` and `deadline` are unchanged. -/
theorem C10_join_frame {s : Storage} {sender : Addr} {now : Int} {game_id amount : Nat}
    {s' : Storage} {tr : List Transfer}
    (h : join_game s sender now game_id amount = .ok (s', tr)) :
    s'.gameCounter = s.gameCounter ∧ s'.feePercentage = s.feePercentage ∧
      s'.numWinners = s.numWinners ∧ s'.winnerDistribution = s.winnerDistribution ∧
      s'.owner = s.owner ∧ s'.admins = s.admins ∧ s'.totalFee = s.totalFee ∧
      (∀ j : Nat, j ≠ game_id → s'.games[j]? = s.games[j]?) ∧
      (∃ game, s.games[game_id]? = some game ∧
        s'.games[game_id]? = some (join_update sender amount game) ∧
        (join_update sender amount game).ended = game.ended ∧
        (join_update sender amount game).maxParticipants = game.maxParticipants ∧
        (join_update sender amount game).deadline = game.deadline) := by
  obtain ⟨game, hg, -, -, -, -, -, hs⟩ := join_game_ok h
  subst hs
  refine ⟨rfl, rfl, rfl, rfl, rfl, rfl, rfl, ?_, game, hg, ?_, rfl, rfl, rfl⟩
  · intro j hj
    exact List.getElem?_set_ne (fun hh => hj hh.symm)
  · exact List.getElem?_set_self (lookup_lt_length hg)

/-- C10 witness: participant 2's join taking `S2` to `S3` leaves all global
fields and the joined game's other fields unchanged. -/
theorem C10_witness :
    S3.gameCounter = S2.gameCounter ∧ S3.feePercentage = S2.feePercentage ∧
      S3.numWinners = S2.numWinners ∧ S3.winnerDistribution = S2.winnerDistribution ∧
      S3.owner = S2.owner ∧ S3.admins = S2.admins ∧ S3.totalFee = S2.totalFee ∧
      (∀ j : Nat, j ≠ 0 → S3.games[j]? = S2.games[j]?) ∧
      (∃ game, S2.games[0]? = some game ∧
        S3.games[0]? = some (join_update 2 1000 game) ∧
        (join_update 2 1000 game).ended = game.ended ∧
        (join_update 2 1000 game).maxParticipants = game.maxParticipants ∧
        (join_update 2 1000 game).deadline = game.deadline) :=
  C10_join_frame (show join_game S2 2 0 0 1000 = .ok (S3, []) from rfl)

/-- C1 counterexample: participant 1 joins game 0 of `S2` a second time (a
successful `join_game`), reaching `SB` where `totalAmount` is 2000 but the
participants map only records the overwritten deposit 1000. -/
theorem C1_counterexample :
    Reachable SB ∧ join_game S2 1 0 0 1000 = .ok (SB, []) ∧
      SB.games[0]? = some G_twice ∧ G_twice.totalAmount = 2000 ∧
      sumValues G_twice.participants = 1000 :=
  ⟨reach_SB, rfl, rfl, rfl, rfl⟩

/-- C1 (amended): after every successful `join_game` whose sender is not
already a participant of the game, the equality `totalAmount = sum of the
participants map values` is preserved; a repeated join by the same identity
breaks it, since the map entry is overwritten while `totalAmount` still
accumulates. -/
theorem C1_join_sum_fresh (s : Storage) (sender : Addr) (now : Int)
    (game_id amount : Nat) (s' : Storage) (tr : List Transfer) (game : Game)
    (hg : s.games[game_id]? = some game)
    (hfresh : ∀ p ∈ game.participants, p.1 ≠ sender)
    (hsum : game.totalAmount = sumValues game.participants)
    (h : join_game s sender now game_id amount = .ok (s', tr)) :
    ∃ game', s'.games[game_id]? = some game' ∧
      game'.totalAmount = sumValues game'.participants := by
  obtain ⟨game0, hg0, -, -, -, -, -, hs⟩ := join_game_ok h
  rw [hg] at hg0
  injection hg0 with he
  subst he
  subst hs
  refine ⟨join_update sender amount game, ?_, ?_⟩
  · exact List.getElem?_set_self (lookup_lt_length hg)
  · simp only [join_update]
    rw [mapInsert_of_forall_ne sender amount game.participants hfresh, sumValues_append]
    have hone : sumValues [(sender, amount)] = amount := by simp [sumValues]
    rw [hone, hsum]

/-- C1 witness: participant 1's first join of game 0 (storage `S1`, empty
participants map) preserves the accounting equality. -/
theorem C1_witness :
    S1.games[0]? = some G_open ∧ (∀ p ∈ G_open.participants, p.1 ≠ 1) ∧
      G_open.totalAmount = sumValues G_open.participants ∧
      (∃ game', S2.games[0]? = some game' ∧
        game'.totalAmount = sumValues game'.participants) :=
  ⟨rfl, by decide, rfl,
    C1_join_sum_fresh S1 1 0 0 1000 S2 [] G_open rfl (by decide) rfl rfl⟩

/-- C2: a successful `end_game` on a reachable storage collects
`fee = floor(totalAmount * feePercentage / 100)` into `totalFee`, pays each
winner `floor(prize * p / 100)` for its percentage `p` in table order (with
`prize = totalAmount - fee`), and the fee plus the paid shares never exceed
`totalAmount`: the rounding residue is non-negative. -/
theorem C2_end_game_split (s : Storage) (sender : Addr) (game_id : Nat)
    (winners : List Addr) (s' : Storage) (tr : List Transfer)
    (hreach : Reachable s)
    (h : end_game s sender game_id winners = .ok (s', tr)) :
    ∃ game, s.games[game_id]? = some game ∧ game.started = true ∧ game.ended = false ∧
      s'.totalFee = s.totalFee + split_tokens game.totalAmount s.feePercentage 100 ∧
      tr.map Prod.fst = winners ∧
      tr.map Prod.snd = s.winnerDistribution.map (fun p =>
        split_tokens (game.totalAmount - split_tokens game.totalAmount s.feePercentage 100)
          p 100) ∧
      split_tokens game.totalAmount s.feePercentage 100 + (tr.map Prod.snd).sum ≤
        game.totalAmount := by
  obtain ⟨hlen, hsum, hfee⟩ := configInv_reachable hreach
  obtain ⟨game, hadm, hg, hst, hen, hw, hpt, hs⟩ := end_game_ok h
  have hfull := prize_transfers_full
    (game.totalAmount - split_tokens game.totalAmount s.feePercentage 100)
    s.winnerDistribution winners s.numWinners hlen hw
  rw [hpt] at hfull
  injection hfull with htr
  subst hs
  have hlen2 : (s.winnerDistribution.map (fun p =>
      split_tokens (game.totalAmount - split_tokens game.totalAmount s.feePercentage 100)
        p 100)).length = winners.length := by
    rw [List.length_map, hlen, hw]
  have hfst : tr.map Prod.fst = winners := by
    rw [htr]
    exact List.map_fst_zip _ _ (Nat.le_of_eq hlen2.symm)
  have hsnd : tr.map Prod.snd = s.winnerDistribution.map (fun p =>
      split_tokens (game.totalAmount - split_tokens game.totalAmount s.feePercentage 100)
        p 100) := by
    rw [htr]
    exact List.map_snd_zip _ _ (Nat.le_of_eq hlen2)
  refine ⟨game, hg, hst, hen, rfl, hfst, hsnd, ?_⟩
  rw [hsnd]
  have h1 := shares_sum_le
    (game.totalAmount - split_tokens game.totalAmount s.feePercentage 100)
    s.winnerDistribution
  rw [hsum] at h1
  have h2 : (game.totalAmount - split_tokens game.totalAmount s.feePercentage 100) * 100 / 100
      = game.totalAmount - split_tokens game.totalAmount s.feePercentage 100 :=
    Nat.mul_div_cancel _ (by omega)
  rw [h2] at h1
  have h3 := split_tokens_le game.totalAmount s.feePercentage hfee
  omega

/-- C2 witness: ending game 0 of `S5` (pool 3000, fee 5%) collects fee 150
and pays 1425/855/570 out of prize 2850, within the pool. -/
theorem C2_witness :
    Reachable S5 ∧
      (∃ game, S5.games[0]? = some game ∧ game.started = true ∧ game.ended = false ∧
        S6.totalFee = S5.totalFee + split_tokens game.totalAmount S5.feePercentage 100 ∧
        TR6.map Prod.fst = [1, 2, 3] ∧
        TR6.map Prod.snd = S5.winnerDistribution.map (fun p =>
          split_tokens (game.totalAmount - split_tokens game.totalAmount S5.feePercentage 100)
            p 100) ∧
        split_tokens game.totalAmount S5.feePercentage 100 + (TR6.map Prod.snd).sum ≤
          game.totalAmount) :=
  ⟨reach_S5, C2_end_game_split S5 0 0 [1, 2, 3] S6 TR6 reach_S5 rfl⟩

/-- C3 counterexample: cancelling game 0 of the reachable storage `SB`
(participant 1 joined twice) refunds 1000 in total while `totalAmount` is
2000, refuting that the total refunded equals `totalAmount`. -/
theorem C3_counterexample :
    Reachable SB ∧ cancel_game SB 0 0 = .ok (SBC, [(1, 1000)]) ∧
      SB.games[0]? = some G_twice ∧ G_twice.totalAmount = 2000 ∧
      (([(1, 1000)] : List Transfer).map Prod.snd).sum = 1000 :=
  ⟨reach_SB, rfl, rfl, rfl, rfl⟩

/-- C3 (amended): for a privileged caller and a stored game, a `cancel_game`
on a not-ended game emits exactly one refund per participant equal to the
recorded deposit (the emitted transfers are the participants map itself), so
the total refunded is the sum of the recorded deposits — at most, but not
always equal to, `totalAmount` — and the game becomes ended; on an
already-ended game it fails with InvalidState and no state change. -/
theorem C3_cancel_refunds (s : Storage) (sender : Addr) (game_id : Nat) (game : Game)
    (hreach : Reachable s) (hadm : is_admin s sender = true)
    (hg : s.games[game_id]? = some game) :
    (game.ended = false →
      cancel_game s sender game_id =
        .ok ({ s with games := s.games.set game_id { game with ended := true } },
          game.participants) ∧
        sumValues game.participants ≤ game.totalAmount) ∧
    (game.ended = true → cancel_game s sender game_id = .error .InvalidState) := by
  constructor
  · intro hen
    have hne : game.ended ≠ true := by rw [hen]; exact Bool.noConfusion
    constructor
    · simp [cancel_game, hadm, hg, hne]
    · exact gamesInv_reachable hreach game_id game hg
  · intro hen
    simp [cancel_game, hadm, hg, hen]

/-- C3 witness: cancelling game 0 of `S2` refunds participant 1 exactly the
recorded 1000 and marks the game ended. -/
theorem C3_witness :
    Reachable S2 ∧ is_admin S2 0 = true ∧ S2.games[0]? = some G_a1 ∧
      (cancel_game S2 0 0 =
          .ok ({ S2 with games := S2.games.set 0 { G_a1 with ended := true } },
            G_a1.participants) ∧
        sumValues G_a1.participants ≤ G_a1.totalAmount) :=
  ⟨reach_S2, rfl, rfl, (C3_cancel_refunds S2 0 0 G_a1 reach_S2 rfl rfl).1 rfl⟩
